import Mathlib

/-!
Shallow embedding of the kinematics / collision / IK engine of the 7-axis
robot-arm demo (pure helper functions of the top-level control module),
over exact real numbers.  Geometry primitives mirror the three.js
`Vector3` / `Matrix4` operations actually used by the source.
-/

/-- 3D vector, mirroring the three.js `Vector3` fields used by the source. -/
structure V3 where
  x : ℝ
  y : ℝ
  z : ℝ

/-- Componentwise sum (`addVectors`). -/
def V3.add (a b : V3) : V3 := ⟨a.x + b.x, a.y + b.y, a.z + b.z⟩

/-- Componentwise difference (`subVectors a b` = a - b). -/
def V3.sub (a b : V3) : V3 := ⟨a.x - b.x, a.y - b.y, a.z - b.z⟩

/-- Scalar multiple (`multiplyScalar`). -/
def V3.multiplyScalar (a : V3) (s : ℝ) : V3 := ⟨a.x * s, a.y * s, a.z * s⟩

/-- Dot product. -/
def V3.dot (a b : V3) : ℝ := a.x * b.x + a.y * b.y + a.z * b.z

/-- Cross product (`crossVectors`). -/
def V3.cross (a b : V3) : V3 :=
  ⟨a.y * b.z - a.z * b.y, a.z * b.x - a.x * b.z, a.x * b.y - a.y * b.x⟩

/-- Euclidean length (`length`). -/
noncomputable def V3.length (a : V3) : ℝ :=
  Real.sqrt (a.x * a.x + a.y * a.y + a.z * a.z)

/-- three.js `normalize` divides by `length() || 1`, so the zero vector is
left unchanged. -/
noncomputable def V3.normalize (a : V3) : V3 :=
  a.multiplyScalar (1 / (if a.length = 0 then 1 else a.length))

/-- Distance between two points (`distanceTo`). -/
noncomputable def V3.distanceTo (a b : V3) : ℝ := (a.sub b).length

/-- 4x4 matrix in row-major mathematical layout (three.js `Matrix4`;
its column-major element array is only a storage convention). -/
structure M4 where
  m11 : ℝ
  m12 : ℝ
  m13 : ℝ
  m14 : ℝ
  m21 : ℝ
  m22 : ℝ
  m23 : ℝ
  m24 : ℝ
  m31 : ℝ
  m32 : ℝ
  m33 : ℝ
  m34 : ℝ
  m41 : ℝ
  m42 : ℝ
  m43 : ℝ
  m44 : ℝ

/-- Identity matrix (`new Matrix4()`). -/
def M4.identity : M4 :=
  ⟨1, 0, 0, 0,
   0, 1, 0, 0,
   0, 0, 1, 0,
   0, 0, 0, 1⟩

/-- Matrix product; `a.multiply b` post-multiplies, this = a * b, acting on
column vectors. -/
def M4.multiply (a b : M4) : M4 :=
  ⟨a.m11 * b.m11 + a.m12 * b.m21 + a.m13 * b.m31 + a.m14 * b.m41,
   a.m11 * b.m12 + a.m12 * b.m22 + a.m13 * b.m32 + a.m14 * b.m42,
   a.m11 * b.m13 + a.m12 * b.m23 + a.m13 * b.m33 + a.m14 * b.m43,
   a.m11 * b.m14 + a.m12 * b.m24 + a.m13 * b.m34 + a.m14 * b.m44,
   a.m21 * b.m11 + a.m22 * b.m21 + a.m23 * b.m31 + a.m24 * b.m41,
   a.m21 * b.m12 + a.m22 * b.m22 + a.m23 * b.m32 + a.m24 * b.m42,
   a.m21 * b.m13 + a.m22 * b.m23 + a.m23 * b.m33 + a.m24 * b.m43,
   a.m21 * b.m14 + a.m22 * b.m24 + a.m23 * b.m34 + a.m24 * b.m44,
   a.m31 * b.m11 + a.m32 * b.m21 + a.m33 * b.m31 + a.m34 * b.m41,
   a.m31 * b.m12 + a.m32 * b.m22 + a.m33 * b.m32 + a.m34 * b.m42,
   a.m31 * b.m13 + a.m32 * b.m23 + a.m33 * b.m33 + a.m34 * b.m43,
   a.m31 * b.m14 + a.m32 * b.m24 + a.m33 * b.m34 + a.m34 * b.m44,
   a.m41 * b.m11 + a.m42 * b.m21 + a.m43 * b.m31 + a.m44 * b.m41,
   a.m41 * b.m12 + a.m42 * b.m22 + a.m43 * b.m32 + a.m44 * b.m42,
   a.m41 * b.m13 + a.m42 * b.m23 + a.m43 * b.m33 + a.m44 * b.m43,
   a.m41 * b.m14 + a.m42 * b.m24 + a.m43 * b.m34 + a.m44 * b.m44⟩

/-- `makeTranslation x y z`. -/
def M4.makeTranslation (x y z : ℝ) : M4 :=
  ⟨1, 0, 0, x,
   0, 1, 0, y,
   0, 0, 1, z,
   0, 0, 0, 1⟩

/-- `makeRotationX θ`. -/
noncomputable def M4.makeRotationX (θ : ℝ) : M4 :=
  ⟨1, 0, 0, 0,
   0, Real.cos θ, -Real.sin θ, 0,
   0, Real.sin θ, Real.cos θ, 0,
   0, 0, 0, 1⟩

/-- `makeRotationY θ`. -/
noncomputable def M4.makeRotationY (θ : ℝ) : M4 :=
  ⟨Real.cos θ, 0, Real.sin θ, 0,
   0, 1, 0, 0,
   -Real.sin θ, 0, Real.cos θ, 0,
   0, 0, 0, 1⟩

/-- `makeRotationZ θ`. -/
noncomputable def M4.makeRotationZ (θ : ℝ) : M4 :=
  ⟨Real.cos θ, -Real.sin θ, 0, 0,
   Real.sin θ, Real.cos θ, 0, 0,
   0, 0, 1, 0,
   0, 0, 0, 1⟩

/-- `setFromMatrixPosition`: the translation column. -/
def M4.positionOf (m : M4) : V3 := ⟨m.m14, m.m24, m.m34⟩

/-- `transformDirection`: applies the upper-left 3x3 block, then
normalizes. -/
noncomputable def V3.transformDirection (v : V3) (m : M4) : V3 :=
  (V3.mk (m.m11 * v.x + m.m12 * v.y + m.m13 * v.z)
         (m.m21 * v.x + m.m22 * v.y + m.m23 * v.z)
         (m.m31 * v.x + m.m32 * v.y + m.m33 * v.z)).normalize

/-- Collision clearance threshold from `constants.ts`. -/
def COLLISION_WARNING_THRESHOLD : ℝ := 0.15

/-- Floor height from `constants.ts`. -/
def FLOOR_LIMIT : ℝ := 0.0

/-- `RobotDimensions` record from `types.ts`. -/
structure RobotDimensions where
  baseHeight : ℝ
  j1j2 : ℝ
  j2j3 : ℝ
  j3j4 : ℝ
  j4j5 : ℝ
  j5j6 : ℝ
  j6j7 : ℝ
  j7tip : ℝ

/-- `DEFAULT_DIMENSIONS` from `types.ts`. -/
def DEFAULT_DIMENSIONS : RobotDimensions :=
  ⟨0.2, 0.3, 0.8, 0.6, 0.6, 0.5, 0.3, 0.2⟩

/-- `JointConfig` from `types.ts`; only the numeric fields read by the
engine (limits, default value, speed) are modelled. -/
structure JointConfig where
  min : ℝ
  max : ℝ
  defaultValue : ℝ
  speed : ℝ

/-- `DEFAULT_JOINTS` from `types.ts` (limits, default value, speed). -/
noncomputable def DEFAULT_JOINTS : Fin 7 → JointConfig := fun i =>
  match (i : ℕ) with
  | 0 => ⟨-Real.pi, Real.pi, 0, 0.02⟩
  | 1 => ⟨-Real.pi / 2, Real.pi / 2, 0, 0.02⟩
  | 2 => ⟨-Real.pi / 1.5, Real.pi / 1.5, 0, 0.03⟩
  | 3 => ⟨-Real.pi / 1.5, Real.pi / 1.5, 0, 0.03⟩
  | 4 => ⟨-Real.pi / 1.5, Real.pi / 1.5, 0, 0.03⟩
  | 5 => ⟨-Real.pi / 1.2, Real.pi / 1.2, Real.pi / 4, 0.04⟩
  | _ => ⟨-Real.pi * 2, Real.pi * 2, 0, 0.05⟩

/-- `JOINT_AXES` array (local rotation axis per joint index). -/
def JOINT_AXES : ℕ → V3 := fun k =>
  match k with
  | 0 => ⟨0, 1, 0⟩
  | 1 => ⟨1, 0, 0⟩
  | 2 => ⟨0, 1, 0⟩
  | 3 => ⟨0, 1, 0⟩
  | 4 => ⟨0, 1, 0⟩
  | 5 => ⟨1, 0, 0⟩
  | 6 => ⟨0, 0, 1⟩
  | _ => ⟨0, 0, 0⟩

/-- `getBoneOffsets(dims)`: the eight per-link offset vectors. -/
def getBoneOffsets (dims : RobotDimensions) : ℕ → V3 := fun k =>
  match k with
  | 0 => ⟨0, dims.baseHeight, 0⟩
  | 1 => ⟨0, dims.j1j2, 0⟩
  | 2 => ⟨0, 0, dims.j2j3⟩
  | 3 => ⟨0, 0, dims.j3j4⟩
  | 4 => ⟨0, 0, dims.j4j5⟩
  | 5 => ⟨0, 0, dims.j5j6⟩
  | 6 => ⟨0, 0, dims.j6j7⟩
  | _ => ⟨0, 0, dims.j7tip⟩

/-- Angle lookup with the JS array access lifted to all of ℕ (indices
beyond 6 are never reached by the loops). -/
def angAt (angles : Fin 7 → ℝ) (k : ℕ) : ℝ :=
  if h : k < 7 then angles ⟨k, h⟩ else 0

/-- Rotation matrix chosen per joint in `computeFK`
(`JOINT_AXES[i].x === 1` / `.y === 1` / else Z). -/
noncomputable def jointRotation (k : ℕ) (θ : ℝ) : M4 :=
  if (JOINT_AXES k).x = 1 then M4.makeRotationX θ
  else if (JOINT_AXES k).y = 1 then M4.makeRotationY θ
  else M4.makeRotationZ θ

/-- Cumulative transform in `computeFK`: base translation, then per joint
k a rotation by `angles[k]` followed by the translation to the next
joint.  `fkMatrix angles dims k` is `currentMatrix` at the moment
`jointPositions[k]` is recorded. -/
noncomputable def fkMatrix (angles : Fin 7 → ℝ) (dims : RobotDimensions) : ℕ → M4
  | 0 => M4.identity.multiply
      (M4.makeTranslation (getBoneOffsets dims 0).x (getBoneOffsets dims 0).y
        (getBoneOffsets dims 0).z)
  | k + 1 =>
      ((fkMatrix angles dims k).multiply (jointRotation k (angAt angles k))).multiply
        (M4.makeTranslation (getBoneOffsets dims (k + 1)).x
          (getBoneOffsets dims (k + 1)).y (getBoneOffsets dims (k + 1)).z)

/-- `computeFK(angles, dims)`: the eight world-space joint positions
(J1 .. Tip). -/
noncomputable def computeFK (angles : Fin 7 → ℝ) (dims : RobotDimensions) :
    Fin 8 → V3 :=
  fun i => (fkMatrix angles dims i).positionOf

/-- First branch stage of `distSegmentToSegment` (lines choosing sN, sD,
tN, tD from the determinant D and the raw numerators), returning
(sN, sD, tN, tD). -/
noncomputable def segStage1 (a b c d e : ℝ) : ℝ × ℝ × ℝ × ℝ :=
  let D := a * c - b * b
  if D < 1e-6 then (0, 1, e, c)
  else
    let sN := b * e - c * d
    let tN := a * e - b * d
    if sN < 0 then (0, D, e, c)
    else if sN > D then (D, D, e + b, c)
    else (sN, D, tN, D)

/-- Second branch stage of `distSegmentToSegment` (the `tN < 0` and
`tN > tD` fixups), returning the final (sN, sD, tN, tD). -/
noncomputable def segStage2 (a d b : ℝ) (s : ℝ × ℝ × ℝ × ℝ) : ℝ × ℝ × ℝ × ℝ :=
  let sN := s.1
  let sD := s.2.1
  let tN := s.2.2.1
  let tD := s.2.2.2
  if tN < 0 then
    if -d < 0 then (0, sD, 0, tD)
    else if -d > a then (sD, sD, 0, tD)
    else (-d, a, 0, tD)
  else if tN > tD then
    if -d + b < 0 then (0, sD, tD, tD)
    else if -d + b > a then (sD, sD, tD, tD)
    else (-d + b, a, tD, tD)
  else (sN, sD, tN, tD)

/-- Final (sN, sD, tN, tD) computed by `distSegmentToSegment` for the
segments P1-Q1 and P2-Q2. -/
noncomputable def segBranch (p1 q1 p2 q2 : V3) : ℝ × ℝ × ℝ × ℝ :=
  let u := q1.sub p1
  let v := q2.sub p2
  let w := p1.sub p2
  let a := u.dot u
  let b := u.dot v
  let c := v.dot v
  let d := u.dot w
  let e := v.dot w
  segStage2 a d b (segStage1 a b c d e)

/-- `distSegmentToSegment(p1, q1, p2, q2)`: shortest distance between the
segments P1-Q1 and P2-Q2 by the closest-point algorithm of the source,
with its `1e-6` guards on the two numerators. -/
noncomputable def distSegmentToSegment (p1 q1 p2 q2 : V3) : ℝ :=
  let u := q1.sub p1
  let v := q2.sub p2
  let w := p1.sub p2
  let r := segBranch p1 q1 p2 q2
  let sc := if |r.1| < 1e-6 then 0 else r.1 / r.2.1
  let tc := if |r.2.2.1| < 1e-6 then 0 else r.2.2.1 / r.2.2.2
  ((w.add (u.multiplyScalar sc)).sub (v.multiplyScalar tc)).length

/-- Segment list built by `checkSelfCollision`: index 0 is the fixed
segment from the world origin to `positions[0]`, index k+1 joins
`positions[k]` to `positions[k+1]`. -/
def segmentsOf (ps : Fin 8 → V3) (k : Fin 8) : V3 × V3 :=
  if h : (k : ℕ) = 0 then (⟨0, 0, 0⟩, ps 0)
  else (ps ⟨(k : ℕ) - 1, by omega⟩, ps k)

/-- `checkSelfCollision(positions)`: true when a position is below the
floor buffer, or when two segments of the chain whose indices are at
least 2 apart come closer than the clearance threshold. -/
noncomputable def checkSelfCollision (ps : Fin 8 → V3) : Prop :=
  (∃ k : Fin 8, (ps k).y < FLOOR_LIMIT + 0.05) ∨
  (∃ i j : Fin 8, (i : ℕ) + 2 ≤ (j : ℕ) ∧
    distSegmentToSegment (segmentsOf ps i).1 (segmentsOf ps i).2
      (segmentsOf ps j).1 (segmentsOf ps j).2 < COLLISION_WARNING_THRESHOLD)

/-- Rotation matrix chosen per joint inside the axis replay of `solveIK`
(truthiness checks `if (JOINT_AXES[j].x)` / `.y` / else Z). -/
noncomputable def jointRotationIK (k : ℕ) (θ : ℝ) : M4 :=
  if (JOINT_AXES k).x ≠ 0 then M4.makeRotationX θ
  else if (JOINT_AXES k).y ≠ 0 then M4.makeRotationY θ
  else M4.makeRotationZ θ

/-- Partial-FK replay in `solveIK` computing `tempMatrix`: base
translation, then joints 0 .. k-1 with the current angles.
`ikAxisMatrix angles dims i` is `tempMatrix` after the loop `j < i`. -/
noncomputable def ikAxisMatrix (angles : Fin 7 → ℝ) (dims : RobotDimensions) : ℕ → M4
  | 0 => M4.identity.multiply
      (M4.makeTranslation (getBoneOffsets dims 0).x (getBoneOffsets dims 0).y
        (getBoneOffsets dims 0).z)
  | j + 1 =>
      ((ikAxisMatrix angles dims j).multiply (jointRotationIK j (angAt angles j))).multiply
        (M4.makeTranslation (getBoneOffsets dims (j + 1)).x
          (getBoneOffsets dims (j + 1)).y (getBoneOffsets dims (j + 1)).z)

/-- Body of the CCD inner loop of `solveIK` for joint `i`: state is the
current angle vector together with the current end-effector estimate;
`positions` is the (stale) FK snapshot taken at the start of the sweep.
On the `continue` branch the state is unchanged; otherwise the damped,
clamped delta is applied to joint `i` and FK is recomputed. -/
noncomputable def ccdStep (target : V3) (dims : RobotDimensions)
    (cfg : Fin 7 → JointConfig) (positions : Fin 8 → V3) (i : Fin 7)
    (st : (Fin 7 → ℝ) × V3) : (Fin 7 → ℝ) × V3 :=
  let angles := st.1
  let ePos := st.2
  let jointPos := positions ⟨(i : ℕ), by omega⟩
  let toEnd := (ePos.sub jointPos).normalize
  let toTarget := (target.sub jointPos).normalize
  let angleDiff := max (-1) (min 1 (toEnd.dot toTarget))
  if |1 - angleDiff| < 0.0001 then st
  else
    let tempM := ikAxisMatrix angles dims i
    let worldAxis := ((JOINT_AXES i).transformDirection tempM).normalize
    let vE := (toEnd.sub (worldAxis.multiplyScalar (toEnd.dot worldAxis))).normalize
    let vT := (toTarget.sub (worldAxis.multiplyScalar (toTarget.dot worldAxis))).normalize
    let rotAngle0 := Real.arccos (max (-1) (min 1 (vE.dot vT)))
    let rotAngle1 := if (vE.cross vT).dot worldAxis < 0 then -rotAngle0 else rotAngle0
    let rotAngle := rotAngle1 * 0.5
    let newAngles := Function.update angles i
      (max (cfg i).min (min (cfg i).max (angles i + rotAngle)))
    (newAngles, computeFK newAngles dims 7)

/-- Backward sweep of `solveIK`: the inner loop runs over the listed
joint indices in order. -/
noncomputable def ccdSweep (target : V3) (dims : RobotDimensions)
    (cfg : Fin 7 → JointConfig) (positions : Fin 8 → V3) :
    List (Fin 7) → (Fin 7 → ℝ) × V3 → (Fin 7 → ℝ) × V3
  | [], st => st
  | i :: rest, st =>
      ccdSweep target dims cfg positions rest (ccdStep target dims cfg positions i st)

/-- Joint order of the backward pass (`for i = 5; i >= 0; i--`). -/
def sweepOrder : List (Fin 7) := [5, 4, 3, 2, 1, 0]

/-- One outer iteration body of `solveIK` past the early-exit check:
take the FK snapshot, run the backward sweep seeded with the snapshot's
end-effector position, and keep the resulting angles. -/
noncomputable def sweepOnce (target : V3) (dims : RobotDimensions)
    (cfg : Fin 7 → JointConfig) (as : Fin 7 → ℝ) : Fin 7 → ℝ :=
  (ccdSweep target dims cfg (computeFK as dims) sweepOrder
    (as, computeFK as dims 7)).1

/-- Outer iteration of `solveIK` with an explicit fuel: each round first
applies the early-exit distance test, then performs one backward sweep. -/
noncomputable def ikLoop (target : V3) (dims : RobotDimensions)
    (cfg : Fin 7 → JointConfig) : ℕ → (Fin 7 → ℝ) → (Fin 7 → ℝ)
  | 0, as => as
  | n + 1, as =>
      if (computeFK as dims 7).distanceTo target < 0.01 then as
      else ikLoop target dims cfg n (sweepOnce target dims cfg as)

/-- `solveIK(targetPos, currentAngles, dims, configs)`: up to 5 outer
CCD iterations. -/
noncomputable def solveIK (target : V3) (currentAngles : Fin 7 → ℝ)
    (dims : RobotDimensions) (cfg : Fin 7 → JointConfig) : Fin 7 → ℝ :=
  ikLoop target dims cfg 5 currentAngles

/-- Angle vector drawn by `generateWorkspace` from one random draw
`r : Fin 7 → ℝ` (each `r i` plays the role of `Math.random()`):
`j.min + r * (j.max - j.min)`. -/
def drawAngles (cfg : Fin 7 → JointConfig) (r : Fin 7 → ℝ) : Fin 7 → ℝ :=
  fun i => (cfg i).min + r i * ((cfg i).max - (cfg i).min)

open Classical

/-- `generateWorkspace` core loop: for each random draw, run FK and keep
the tip only when `checkSelfCollision` fails. -/
noncomputable def generateWorkspace (cfg : Fin 7 → JointConfig)
    (dims : RobotDimensions) : List (Fin 7 → ℝ) → List V3
  | [] => []
  | r :: rest =>
      if ¬ checkSelfCollision (computeFK (drawAngles cfg r) dims) then
        computeFK (drawAngles cfg r) dims 7 :: generateWorkspace cfg dims rest
      else generateWorkspace cfg dims rest

theorem M4.identity_multiply (m : M4) : M4.identity.multiply m = m := by
  cases m; simp [M4.multiply, M4.identity]

theorem M4.multiply_identity (m : M4) : m.multiply M4.identity = m := by
  cases m; simp [M4.multiply, M4.identity]

theorem M4.makeRotationX_zero : M4.makeRotationX 0 = M4.identity := by
  simp [M4.makeRotationX, M4.identity]

theorem M4.makeRotationY_zero : M4.makeRotationY 0 = M4.identity := by
  simp [M4.makeRotationY, M4.identity]

theorem M4.makeRotationZ_zero : M4.makeRotationZ 0 = M4.identity := by
  simp [M4.makeRotationZ, M4.identity]

theorem jointRotation_zero (k : ℕ) : jointRotation k 0 = M4.identity := by
  unfold jointRotation
  split_ifs <;>
    simp [M4.makeRotationX_zero, M4.makeRotationY_zero, M4.makeRotationZ_zero]

theorem M4.trans_multiply_trans (a b c d e f : ℝ) :
    (M4.makeTranslation a b c).multiply (M4.makeTranslation d e f) =
      M4.makeTranslation (a + d) (b + e) (c + f) := by
  simp [M4.multiply, M4.makeTranslation, add_comm]

theorem M4.positionOf_makeTranslation (x y z : ℝ) :
    (M4.makeTranslation x y z).positionOf = ⟨x, y, z⟩ := rfl

/-- All-zero joint-angle vector. -/
def zeroAngles : Fin 7 → ℝ := fun _ => 0

theorem angAt_zeroAngles (k : ℕ) : angAt zeroAngles k = 0 := by
  unfold angAt zeroAngles; split <;> rfl

theorem fkMatrix_succ (angles : Fin 7 → ℝ) (dims : RobotDimensions) (k : ℕ) :
    fkMatrix angles dims (k + 1) =
      ((fkMatrix angles dims k).multiply (jointRotation k (angAt angles k))).multiply
        (M4.makeTranslation (getBoneOffsets dims (k + 1)).x
          (getBoneOffsets dims (k + 1)).y (getBoneOffsets dims (k + 1)).z) := rfl

theorem fkMatrix_step_zeroRot (angles : Fin 7 → ℝ) (dims : RobotDimensions)
    (k : ℕ) (a b c : ℝ) (hang : angAt angles k = 0)
    (hM : fkMatrix angles dims k = M4.makeTranslation a b c) :
    fkMatrix angles dims (k + 1) =
      M4.makeTranslation (a + (getBoneOffsets dims (k + 1)).x)
        (b + (getBoneOffsets dims (k + 1)).y) (c + (getBoneOffsets dims (k + 1)).z) := by
  rw [fkMatrix_succ, hM, hang, jointRotation_zero, M4.multiply_identity,
    M4.trans_multiply_trans]

theorem zf0 : fkMatrix zeroAngles DEFAULT_DIMENSIONS 0 = M4.makeTranslation 0 0.2 0 := by
  simp [fkMatrix, getBoneOffsets, DEFAULT_DIMENSIONS, M4.identity_multiply]

theorem zf1 : fkMatrix zeroAngles DEFAULT_DIMENSIONS 1 = M4.makeTranslation 0 0.5 0 := by
  rw [show (1 : ℕ) = 0 + 1 from rfl,
    fkMatrix_step_zeroRot zeroAngles DEFAULT_DIMENSIONS 0 _ _ _ (angAt_zeroAngles 0) zf0]
  norm_num [getBoneOffsets, DEFAULT_DIMENSIONS, M4.makeTranslation]

theorem zf2 : fkMatrix zeroAngles DEFAULT_DIMENSIONS 2 = M4.makeTranslation 0 0.5 0.8 := by
  rw [show (2 : ℕ) = 1 + 1 from rfl,
    fkMatrix_step_zeroRot zeroAngles DEFAULT_DIMENSIONS 1 _ _ _ (angAt_zeroAngles 1) zf1]
  norm_num [getBoneOffsets, DEFAULT_DIMENSIONS, M4.makeTranslation]

theorem zf3 : fkMatrix zeroAngles DEFAULT_DIMENSIONS 3 = M4.makeTranslation 0 0.5 1.4 := by
  rw [show (3 : ℕ) = 2 + 1 from rfl,
    fkMatrix_step_zeroRot zeroAngles DEFAULT_DIMENSIONS 2 _ _ _ (angAt_zeroAngles 2) zf2]
  norm_num [getBoneOffsets, DEFAULT_DIMENSIONS, M4.makeTranslation]

theorem zf4 : fkMatrix zeroAngles DEFAULT_DIMENSIONS 4 = M4.makeTranslation 0 0.5 2 := by
  rw [show (4 : ℕ) = 3 + 1 from rfl,
    fkMatrix_step_zeroRot zeroAngles DEFAULT_DIMENSIONS 3 _ _ _ (angAt_zeroAngles 3) zf3]
  norm_num [getBoneOffsets, DEFAULT_DIMENSIONS, M4.makeTranslation]

theorem zf5 : fkMatrix zeroAngles DEFAULT_DIMENSIONS 5 = M4.makeTranslation 0 0.5 2.5 := by
  rw [show (5 : ℕ) = 4 + 1 from rfl,
    fkMatrix_step_zeroRot zeroAngles DEFAULT_DIMENSIONS 4 _ _ _ (angAt_zeroAngles 4) zf4]
  norm_num [getBoneOffsets, DEFAULT_DIMENSIONS, M4.makeTranslation]

theorem zf6 : fkMatrix zeroAngles DEFAULT_DIMENSIONS 6 = M4.makeTranslation 0 0.5 2.8 := by
  rw [show (6 : ℕ) = 5 + 1 from rfl,
    fkMatrix_step_zeroRot zeroAngles DEFAULT_DIMENSIONS 5 _ _ _ (angAt_zeroAngles 5) zf5]
  norm_num [getBoneOffsets, DEFAULT_DIMENSIONS, M4.makeTranslation]

theorem zf7 : fkMatrix zeroAngles DEFAULT_DIMENSIONS 7 = M4.makeTranslation 0 0.5 3 := by
  rw [show (7 : ℕ) = 6 + 1 from rfl,
    fkMatrix_step_zeroRot zeroAngles DEFAULT_DIMENSIONS 6 _ _ _ (angAt_zeroAngles 6) zf6]
  norm_num [getBoneOffsets, DEFAULT_DIMENSIONS, M4.makeTranslation]

/-- Joint positions of the all-zero pose with the default link lengths. -/
def zeroPosePts : Fin 8 → V3 := fun i =>
  match (i : ℕ) with
  | 0 => ⟨0, 0.2, 0⟩
  | 1 => ⟨0, 0.5, 0⟩
  | 2 => ⟨0, 0.5, 0.8⟩
  | 3 => ⟨0, 0.5, 1.4⟩
  | 4 => ⟨0, 0.5, 2⟩
  | 5 => ⟨0, 0.5, 2.5⟩
  | 6 => ⟨0, 0.5, 2.8⟩
  | _ => ⟨0, 0.5, 3⟩

theorem computeFK_zeroAngles :
    computeFK zeroAngles DEFAULT_DIMENSIONS = zeroPosePts := by
  funext i
  fin_cases i <;>
    simp [computeFK, zeroPosePts, zf0, zf1, zf2, zf3, zf4, zf5, zf6, zf7,
      M4.positionOf_makeTranslation]

/-- Default joint angles (the `defaultValue` column of `DEFAULT_JOINTS`):
all zero except joint index 5 at pi/4. -/
noncomputable def defaultAngles : Fin 7 → ℝ := fun i => (DEFAULT_JOINTS i).defaultValue

theorem angAt_default_0 : angAt defaultAngles 0 = 0 := rfl

theorem angAt_default_1 : angAt defaultAngles 1 = 0 := rfl

theorem angAt_default_2 : angAt defaultAngles 2 = 0 := rfl

theorem angAt_default_3 : angAt defaultAngles 3 = 0 := rfl

theorem angAt_default_4 : angAt defaultAngles 4 = 0 := rfl

theorem angAt_default_5 : angAt defaultAngles 5 = Real.pi / 4 := rfl

theorem angAt_default_6 : angAt defaultAngles 6 = 0 := rfl

theorem df0 : fkMatrix defaultAngles DEFAULT_DIMENSIONS 0 = M4.makeTranslation 0 0.2 0 := by
  simp [fkMatrix, getBoneOffsets, DEFAULT_DIMENSIONS, M4.identity_multiply]

theorem df1 : fkMatrix defaultAngles DEFAULT_DIMENSIONS 1 = M4.makeTranslation 0 0.5 0 := by
  rw [show (1 : ℕ) = 0 + 1 from rfl,
    fkMatrix_step_zeroRot defaultAngles DEFAULT_DIMENSIONS 0 _ _ _ angAt_default_0 df0]
  norm_num [getBoneOffsets, DEFAULT_DIMENSIONS, M4.makeTranslation]

theorem df2 : fkMatrix defaultAngles DEFAULT_DIMENSIONS 2 = M4.makeTranslation 0 0.5 0.8 := by
  rw [show (2 : ℕ) = 1 + 1 from rfl,
    fkMatrix_step_zeroRot defaultAngles DEFAULT_DIMENSIONS 1 _ _ _ angAt_default_1 df1]
  norm_num [getBoneOffsets, DEFAULT_DIMENSIONS, M4.makeTranslation]

theorem df3 : fkMatrix defaultAngles DEFAULT_DIMENSIONS 3 = M4.makeTranslation 0 0.5 1.4 := by
  rw [show (3 : ℕ) = 2 + 1 from rfl,
    fkMatrix_step_zeroRot defaultAngles DEFAULT_DIMENSIONS 2 _ _ _ angAt_default_2 df2]
  norm_num [getBoneOffsets, DEFAULT_DIMENSIONS, M4.makeTranslation]

theorem df4 : fkMatrix defaultAngles DEFAULT_DIMENSIONS 4 = M4.makeTranslation 0 0.5 2 := by
  rw [show (4 : ℕ) = 3 + 1 from rfl,
    fkMatrix_step_zeroRot defaultAngles DEFAULT_DIMENSIONS 3 _ _ _ angAt_default_3 df3]
  norm_num [getBoneOffsets, DEFAULT_DIMENSIONS, M4.makeTranslation]

theorem df5 : fkMatrix defaultAngles DEFAULT_DIMENSIONS 5 = M4.makeTranslation 0 0.5 2.5 := by
  rw [show (5 : ℕ) = 4 + 1 from rfl,
    fkMatrix_step_zeroRot defaultAngles DEFAULT_DIMENSIONS 4 _ _ _ angAt_default_4 df4]
  norm_num [getBoneOffsets, DEFAULT_DIMENSIONS, M4.makeTranslation]

theorem jointRotation_5 (θ : ℝ) : jointRotation 5 θ = M4.makeRotationX θ := by
  unfold jointRotation JOINT_AXES; norm_num

theorem df6 :
    fkMatrix defaultAngles DEFAULT_DIMENSIONS 6 =
      { m11 := 1, m12 := 0, m13 := 0, m14 := 0,
        m21 := 0, m22 := Real.sqrt 2 / 2, m23 := -(Real.sqrt 2 / 2),
        m24 := 0.5 - 0.3 * (Real.sqrt 2 / 2),
        m31 := 0, m32 := Real.sqrt 2 / 2, m33 := Real.sqrt 2 / 2,
        m34 := 2.5 + 0.3 * (Real.sqrt 2 / 2),
        m41 := 0, m42 := 0, m43 := 0, m44 := 1 } := by
  rw [show (6 : ℕ) = 5 + 1 from rfl, fkMatrix_succ, df5, angAt_default_5, jointRotation_5]
  simp [M4.multiply, M4.makeTranslation, M4.makeRotationX, getBoneOffsets,
    DEFAULT_DIMENSIONS, Real.cos_pi_div_four, Real.sin_pi_div_four]
  norm_num
  constructor <;> ring

theorem df7 :
    fkMatrix defaultAngles DEFAULT_DIMENSIONS 7 =
      { m11 := 1, m12 := 0, m13 := 0, m14 := 0,
        m21 := 0, m22 := Real.sqrt 2 / 2, m23 := -(Real.sqrt 2 / 2),
        m24 := 0.5 - 0.5 * (Real.sqrt 2 / 2),
        m31 := 0, m32 := Real.sqrt 2 / 2, m33 := Real.sqrt 2 / 2,
        m34 := 2.5 + 0.5 * (Real.sqrt 2 / 2),
        m41 := 0, m42 := 0, m43 := 0, m44 := 1 } := by
  rw [show (7 : ℕ) = 6 + 1 from rfl, fkMatrix_succ, df6, angAt_default_6,
    jointRotation_zero, M4.multiply_identity]
  simp [M4.multiply, M4.makeTranslation, getBoneOffsets, DEFAULT_DIMENSIONS]
  norm_num
  constructor <;> ring

/-- Joint positions of the default rest pose (all-zero angles except
joint 6 at pi/4) with the default link lengths. -/
noncomputable def restPosePts : Fin 8 → V3 := fun i =>
  match (i : ℕ) with
  | 0 => ⟨0, 0.2, 0⟩
  | 1 => ⟨0, 0.5, 0⟩
  | 2 => ⟨0, 0.5, 0.8⟩
  | 3 => ⟨0, 0.5, 1.4⟩
  | 4 => ⟨0, 0.5, 2⟩
  | 5 => ⟨0, 0.5, 2.5⟩
  | 6 => ⟨0, 0.5 - 0.3 * (Real.sqrt 2 / 2), 2.5 + 0.3 * (Real.sqrt 2 / 2)⟩
  | _ => ⟨0, 0.5 - 0.5 * (Real.sqrt 2 / 2), 2.5 + 0.5 * (Real.sqrt 2 / 2)⟩

theorem computeFK_defaultAngles :
    computeFK defaultAngles DEFAULT_DIMENSIONS = restPosePts := by
  funext i
  fin_cases i <;>
    simp [computeFK, restPosePts, df0, df1, df2, df3, df4, df5, df6, df7,
      M4.positionOf, M4.makeTranslation]

theorem V3.dot_self_nonneg (a : V3) : 0 ≤ a.dot a := by
  have hx := mul_self_nonneg a.x
  have hy := mul_self_nonneg a.y
  have hz := mul_self_nonneg a.z
  simp only [V3.dot]; linarith

theorem segStage1_bounds (a b c d e : ℝ) (hc : 0 ≤ c) :
    0 ≤ (segStage1 a b c d e).1 ∧
      (segStage1 a b c d e).1 ≤ (segStage1 a b c d e).2.1 ∧
      0 ≤ (segStage1 a b c d e).2.2.2 := by
  simp only [segStage1]
  split_ifs with h1 h2 h3 <;> push_neg at * <;> simp only [Prod.fst, Prod.snd] <;>
    refine ⟨by linarith, by linarith, by linarith⟩

theorem segStage2_bounds (a d b : ℝ) (s : ℝ × ℝ × ℝ × ℝ)
    (h1 : 0 ≤ s.1) (h2 : s.1 ≤ s.2.1) (h3 : 0 ≤ s.2.2.2) :
    0 ≤ (segStage2 a d b s).1 ∧
      (segStage2 a d b s).1 ≤ (segStage2 a d b s).2.1 ∧
      0 ≤ (segStage2 a d b s).2.2.1 ∧
      (segStage2 a d b s).2.2.1 ≤ (segStage2 a d b s).2.2.2 := by
  obtain ⟨sN, sD, tN, tD⟩ := s
  simp only at h1 h2 h3
  simp only [segStage2]
  split_ifs <;> push_neg at * <;> simp only [Prod.fst, Prod.snd] <;>
    refine ⟨by linarith, by linarith, by linarith, by linarith⟩

theorem segBranch_bounds (p1 q1 p2 q2 : V3) :
    0 ≤ (segBranch p1 q1 p2 q2).1 ∧
      (segBranch p1 q1 p2 q2).1 ≤ (segBranch p1 q1 p2 q2).2.1 ∧
      0 ≤ (segBranch p1 q1 p2 q2).2.2.1 ∧
      (segBranch p1 q1 p2 q2).2.2.1 ≤ (segBranch p1 q1 p2 q2).2.2.2 := by
  obtain ⟨u1, u2, u3⟩ :=
    segStage1_bounds ((q1.sub p1).dot (q1.sub p1)) ((q1.sub p1).dot (q2.sub p2))
      ((q2.sub p2).dot (q2.sub p2)) ((q1.sub p1).dot (p1.sub p2))
      ((q2.sub p2).dot (p1.sub p2)) (V3.dot_self_nonneg _)
  exact segStage2_bounds _ _ _ _ u1 u2 u3

theorem distSegmentToSegment_param (p1 q1 p2 q2 : V3) :
    ∃ sc tc : ℝ, 0 ≤ sc ∧ sc ≤ 1 ∧ 0 ≤ tc ∧ tc ≤ 1 ∧
      distSegmentToSegment p1 q1 p2 q2 =
        (((p1.sub p2).add ((q1.sub p1).multiplyScalar sc)).sub
          ((q2.sub p2).multiplyScalar tc)).length := by
  obtain ⟨h1, h2, h3, h4⟩ := segBranch_bounds p1 q1 p2 q2
  refine ⟨if |(segBranch p1 q1 p2 q2).1| < 1e-6 then 0
      else (segBranch p1 q1 p2 q2).1 / (segBranch p1 q1 p2 q2).2.1,
    if |(segBranch p1 q1 p2 q2).2.2.1| < 1e-6 then 0
      else (segBranch p1 q1 p2 q2).2.2.1 / (segBranch p1 q1 p2 q2).2.2.2,
    ?_, ?_, ?_, ?_, rfl⟩
  · split_ifs with h
    · exact le_refl 0
    · rw [abs_of_nonneg h1] at h
      exact div_nonneg h1 (le_trans h1 h2)
  · split_ifs with h
    · norm_num
    · rw [abs_of_nonneg h1] at h
      push_neg at h
      have hpos : (0 : ℝ) < (segBranch p1 q1 p2 q2).2.1 := by
        calc (0 : ℝ) < 1e-6 := by norm_num
          _ ≤ (segBranch p1 q1 p2 q2).1 := h
          _ ≤ (segBranch p1 q1 p2 q2).2.1 := h2
      exact (div_le_one hpos).mpr h2
  · split_ifs with h
    · exact le_refl 0
    · rw [abs_of_nonneg h3] at h
      exact div_nonneg h3 (le_trans h3 h4)
  · split_ifs with h
    · norm_num
    · rw [abs_of_nonneg h3] at h
      push_neg at h
      have hpos : (0 : ℝ) < (segBranch p1 q1 p2 q2).2.2.2 := by
        calc (0 : ℝ) < 1e-6 := by norm_num
          _ ≤ (segBranch p1 q1 p2 q2).2.2.1 := h
          _ ≤ (segBranch p1 q1 p2 q2).2.2.2 := h4
      exact (div_le_one hpos).mpr h4

theorem abs_z_le_length (a : V3) : |a.z| ≤ a.length := by
  rw [V3.length, ← Real.sqrt_mul_self_eq_abs]
  apply Real.sqrt_le_sqrt
  nlinarith [mul_self_nonneg a.x, mul_self_nonneg a.y]

theorem abs_y_le_length (a : V3) : |a.y| ≤ a.length := by
  rw [V3.length, ← Real.sqrt_mul_self_eq_abs]
  apply Real.sqrt_le_sqrt
  nlinarith [mul_self_nonneg a.x, mul_self_nonneg a.z]

theorem distSeg_ge_of_z (p1 q1 p2 q2 : V3) (A B : ℝ)
    (h1 : p1.z ≤ A) (h2 : q1.z ≤ A) (h3 : B ≤ p2.z) (h4 : B ≤ q2.z) :
    B - A ≤ distSegmentToSegment p1 q1 p2 q2 := by
  obtain ⟨sc, tc, hsc0, hsc1, htc0, htc1, hd⟩ := distSegmentToSegment_param p1 q1 p2 q2
  rw [hd]
  have key : B - A ≤
      -((((p1.sub p2).add ((q1.sub p1).multiplyScalar sc)).sub
        ((q2.sub p2).multiplyScalar tc)).z) := by
    simp only [V3.sub, V3.add, V3.multiplyScalar]
    nlinarith [mul_nonneg (sub_nonneg.2 h3) (sub_nonneg.2 htc1),
      mul_nonneg (sub_nonneg.2 h4) htc0,
      mul_nonneg (sub_nonneg.2 h1) (sub_nonneg.2 hsc1),
      mul_nonneg (sub_nonneg.2 h2) hsc0]
  exact le_trans key (le_trans (neg_le_abs _) (abs_z_le_length _))

theorem distSeg_ge_of_y (p1 q1 p2 q2 : V3) (A B : ℝ)
    (h1 : p1.y ≤ A) (h2 : q1.y ≤ A) (h3 : B ≤ p2.y) (h4 : B ≤ q2.y) :
    B - A ≤ distSegmentToSegment p1 q1 p2 q2 := by
  obtain ⟨sc, tc, hsc0, hsc1, htc0, htc1, hd⟩ := distSegmentToSegment_param p1 q1 p2 q2
  rw [hd]
  have key : B - A ≤
      -((((p1.sub p2).add ((q1.sub p1).multiplyScalar sc)).sub
        ((q2.sub p2).multiplyScalar tc)).y) := by
    simp only [V3.sub, V3.add, V3.multiplyScalar]
    nlinarith [mul_nonneg (sub_nonneg.2 h3) (sub_nonneg.2 htc1),
      mul_nonneg (sub_nonneg.2 h4) htc0,
      mul_nonneg (sub_nonneg.2 h1) (sub_nonneg.2 hsc1),
      mul_nonneg (sub_nonneg.2 h2) hsc0]
  exact le_trans key (le_trans (neg_le_abs _) (abs_y_le_length _))

theorem distSegmentToSegment_nonneg (p1 q1 p2 q2 : V3) :
    0 ≤ distSegmentToSegment p1 q1 p2 q2 := by
  unfold distSegmentToSegment V3.length
  exact Real.sqrt_nonneg _

set_option maxHeartbeats 2000000 in
theorem checkSelfCollision_zeroPose : ¬ checkSelfCollision zeroPosePts := by
  rintro (⟨k, hk⟩ | ⟨i, j, hij, hd⟩)
  · fin_cases k <;> norm_num [zeroPosePts, FLOOR_LIMIT] at hk
  · have h015 : (COLLISION_WARNING_THRESHOLD : ℝ) = 0.15 := rfl
    rw [h015] at hd
    fin_cases i <;> fin_cases j <;>
      first
        | exact absurd hij (by decide)
        | (simp only [segmentsOf, zeroPosePts] at hd
           first
        | (refine absurd hd (not_lt.mpr (le_trans
            (show (0.15 : ℝ) ≤ 0.5 - 0.2 by norm_num)
            (distSeg_ge_of_y _ _ _ _ 0.2 0.5 ?_ ?_ ?_ ?_))) <;>
            ((norm_num; try nlinarith); done))
        | (refine absurd hd (not_lt.mpr (le_trans
            (show (0.15 : ℝ) ≤ 0.8 - 0 by norm_num)
            (distSeg_ge_of_z _ _ _ _ 0 0.8 ?_ ?_ ?_ ?_))) <;>
            ((norm_num; try nlinarith); done))
        | (refine absurd hd (not_lt.mpr (le_trans
            (show (0.15 : ℝ) ≤ 1.4 - 0.8 by norm_num)
            (distSeg_ge_of_z _ _ _ _ 0.8 1.4 ?_ ?_ ?_ ?_))) <;>
            ((norm_num; try nlinarith); done))
        | (refine absurd hd (not_lt.mpr (le_trans
            (show (0.15 : ℝ) ≤ 2 - 1.4 by norm_num)
            (distSeg_ge_of_z _ _ _ _ 1.4 2 ?_ ?_ ?_ ?_))) <;>
            ((norm_num; try nlinarith); done))
        | (refine absurd hd (not_lt.mpr (le_trans
            (show (0.15 : ℝ) ≤ 2.5 - 2 by norm_num)
            (distSeg_ge_of_z _ _ _ _ 2 2.5 ?_ ?_ ?_ ?_))) <;>
            ((norm_num; try nlinarith); done))
        | (refine absurd hd (not_lt.mpr (le_trans
            (show (0.15 : ℝ) ≤ 2.8 - 2.5 by norm_num)
            (distSeg_ge_of_z _ _ _ _ 2.5 2.8 ?_ ?_ ?_ ?_))) <;>
            ((norm_num; try nlinarith); done)))

set_option maxHeartbeats 2000000 in
theorem checkSelfCollision_restPose : ¬ checkSelfCollision restPosePts := by
  have hs0 : (0 : ℝ) ≤ Real.sqrt 2 := Real.sqrt_nonneg 2
  have hsq : Real.sqrt 2 * Real.sqrt 2 = 2 := Real.mul_self_sqrt (by norm_num)
  have hs1 : (1 : ℝ) ≤ Real.sqrt 2 := by nlinarith
  have hsU : Real.sqrt 2 ≤ 1.5 := by nlinarith
  rintro (⟨k, hk⟩ | ⟨i, j, hij, hd⟩)
  · fin_cases k <;> norm_num [restPosePts, FLOOR_LIMIT] at hk <;> nlinarith
  · have h015 : (COLLISION_WARNING_THRESHOLD : ℝ) = 0.15 := rfl
    rw [h015] at hd
    fin_cases i <;> fin_cases j <;>
      first
        | exact absurd hij (by decide)
        | (simp only [segmentsOf, restPosePts] at hd
           first
        | (refine absurd hd (not_lt.mpr (le_trans
            (show (0.15 : ℝ) ≤ 0.5 - 0.2 by norm_num)
            (distSeg_ge_of_y _ _ _ _ 0.2 0.5 ?_ ?_ ?_ ?_))) <;>
            ((norm_num; try nlinarith); done))
        | (refine absurd hd (not_lt.mpr (le_trans
            (show (0.15 : ℝ) ≤ 0.8 - 0 by norm_num)
            (distSeg_ge_of_z _ _ _ _ 0 0.8 ?_ ?_ ?_ ?_))) <;>
            ((norm_num; try nlinarith); done))
        | (refine absurd hd (not_lt.mpr (le_trans
            (show (0.15 : ℝ) ≤ 1.4 - 0.8 by norm_num)
            (distSeg_ge_of_z _ _ _ _ 0.8 1.4 ?_ ?_ ?_ ?_))) <;>
            ((norm_num; try nlinarith); done))
        | (refine absurd hd (not_lt.mpr (le_trans
            (show (0.15 : ℝ) ≤ 2 - 1.4 by norm_num)
            (distSeg_ge_of_z _ _ _ _ 1.4 2 ?_ ?_ ?_ ?_))) <;>
            ((norm_num; try nlinarith); done))
        | (refine absurd hd (not_lt.mpr (le_trans
            (show (0.15 : ℝ) ≤ 2.5 - 2 by norm_num)
            (distSeg_ge_of_z _ _ _ _ 2 2.5 ?_ ?_ ?_ ?_))) <;>
            ((norm_num; try nlinarith); done))
        | (refine absurd hd (not_lt.mpr (le_trans
            (show (0.15 : ℝ) ≤ (2.5 + 0.3 * (Real.sqrt 2 / 2)) - 2.5 by nlinarith)
            (distSeg_ge_of_z _ _ _ _ 2.5 (2.5 + 0.3 * (Real.sqrt 2 / 2)) ?_ ?_ ?_ ?_))) <;>
            ((norm_num; try nlinarith); done)))

theorem V3.distanceTo_self (a : V3) : a.distanceTo a = 0 := by
  simp [V3.distanceTo, V3.sub, V3.length]

/-- All angles of a vector lie inside their configured limits. -/
def inLimits (cfg : Fin 7 → JointConfig) (as : Fin 7 → ℝ) : Prop :=
  ∀ i, (cfg i).min ≤ as i ∧ as i ≤ (cfg i).max

theorem ccdStep_fst_apply (target : V3) (dims : RobotDimensions)
    (cfg : Fin 7 → JointConfig) (ps : Fin 8 → V3) (i : Fin 7)
    (st : (Fin 7 → ℝ) × V3) (j : Fin 7) (hj : j ≠ i) :
    (ccdStep target dims cfg ps i st).1 j = st.1 j := by
  simp only [ccdStep]
  split_ifs with h <;> simp [Function.update_noteq hj]

theorem ccdStep_inLimits (target : V3) (dims : RobotDimensions)
    (cfg : Fin 7 → JointConfig) (ps : Fin 8 → V3) (i : Fin 7)
    (st : (Fin 7 → ℝ) × V3) (hminmax : ∀ i, (cfg i).min ≤ (cfg i).max)
    (h : inLimits cfg st.1) : inLimits cfg (ccdStep target dims cfg ps i st).1 := by
  intro j
  by_cases hj : j = i
  · subst hj
    simp only [ccdStep]
    split_ifs with hskip
    · exact h j
    all_goals
      simp only [Function.update_same]
      exact ⟨le_max_left _ _, max_le (hminmax j) (min_le_left _ _)⟩
  · rw [ccdStep_fst_apply target dims cfg ps i st j hj]
    exact h j

theorem ccdSweep_cons (target : V3) (dims : RobotDimensions)
    (cfg : Fin 7 → JointConfig) (ps : Fin 8 → V3) (i : Fin 7) (rest : List (Fin 7))
    (st : (Fin 7 → ℝ) × V3) :
    ccdSweep target dims cfg ps (i :: rest) st =
      ccdSweep target dims cfg ps rest (ccdStep target dims cfg ps i st) := rfl

theorem ccdSweep_inLimits (target : V3) (dims : RobotDimensions)
    (cfg : Fin 7 → JointConfig) (ps : Fin 8 → V3)
    (hminmax : ∀ i, (cfg i).min ≤ (cfg i).max) :
    ∀ (l : List (Fin 7)) (st : (Fin 7 → ℝ) × V3), inLimits cfg st.1 →
      inLimits cfg (ccdSweep target dims cfg ps l st).1 := by
  intro l
  induction l with
  | nil => intro st h; exact h
  | cons i rest ih =>
    intro st h
    rw [ccdSweep_cons]
    exact ih _ (ccdStep_inLimits target dims cfg ps i st hminmax h)

theorem ccdSweep_fst_apply (target : V3) (dims : RobotDimensions)
    (cfg : Fin 7 → JointConfig) (ps : Fin 8 → V3) (j : Fin 7) :
    ∀ (l : List (Fin 7)) (st : (Fin 7 → ℝ) × V3), (∀ i ∈ l, j ≠ i) →
      (ccdSweep target dims cfg ps l st).1 j = st.1 j := by
  intro l
  induction l with
  | nil => intro st _; rfl
  | cons i rest ih =>
    intro st hl
    rw [ccdSweep_cons, ih _ fun k hk => hl k (List.mem_cons_of_mem i hk),
      ccdStep_fst_apply target dims cfg ps i st j (hl i (List.mem_cons_self i rest))]

theorem sweepOnce_inLimits (target : V3) (dims : RobotDimensions)
    (cfg : Fin 7 → JointConfig) (as : Fin 7 → ℝ)
    (hminmax : ∀ i, (cfg i).min ≤ (cfg i).max) (h : inLimits cfg as) :
    inLimits cfg (sweepOnce target dims cfg as) :=
  ccdSweep_inLimits target dims cfg _ hminmax sweepOrder _ h

theorem sweepOnce_sixth (target : V3) (dims : RobotDimensions)
    (cfg : Fin 7 → JointConfig) (as : Fin 7 → ℝ) :
    sweepOnce target dims cfg as 6 = as 6 :=
  ccdSweep_fst_apply target dims cfg _ 6 sweepOrder _ (by decide)

theorem ikLoop_succ (target : V3) (dims : RobotDimensions)
    (cfg : Fin 7 → JointConfig) (n : ℕ) (as : Fin 7 → ℝ) :
    ikLoop target dims cfg (n + 1) as =
      if (computeFK as dims 7).distanceTo target < 0.01 then as
      else ikLoop target dims cfg n (sweepOnce target dims cfg as) := rfl

theorem solveIK_def (target : V3) (as : Fin 7 → ℝ) (dims : RobotDimensions)
    (cfg : Fin 7 → JointConfig) :
    solveIK target as dims cfg = ikLoop target dims cfg 5 as := rfl

theorem solveIK_early (target : V3) (as : Fin 7 → ℝ) (dims : RobotDimensions)
    (cfg : Fin 7 → JointConfig)
    (h : (computeFK as dims 7).distanceTo target < 0.01) :
    solveIK target as dims cfg = as := by
  rw [solveIK_def, show (5 : ℕ) = 4 + 1 from rfl, ikLoop_succ, if_pos h]

theorem ikLoop_inLimits (target : V3) (dims : RobotDimensions)
    (cfg : Fin 7 → JointConfig) (hminmax : ∀ i, (cfg i).min ≤ (cfg i).max) :
    ∀ (n : ℕ) (as : Fin 7 → ℝ), inLimits cfg as →
      inLimits cfg (ikLoop target dims cfg n as) := by
  intro n
  induction n with
  | zero => intro as h; exact h
  | succ k ih =>
    intro as h
    rw [ikLoop_succ]
    split_ifs with hc
    · exact h
    · exact ih _ (sweepOnce_inLimits target dims cfg as hminmax h)

theorem ikLoop_sixth (target : V3) (dims : RobotDimensions)
    (cfg : Fin 7 → JointConfig) :
    ∀ (n : ℕ) (as : Fin 7 → ℝ), ikLoop target dims cfg n as 6 = as 6 := by
  intro n
  induction n with
  | zero => intro as; rfl
  | succ k ih =>
    intro as
    rw [ikLoop_succ]
    split_ifs with hc
    · rfl
    · rw [ih, sweepOnce_sixth]

theorem ikLoop_iterate (target : V3) (dims : RobotDimensions)
    (cfg : Fin 7 → JointConfig) :
    ∀ (n : ℕ) (as : Fin 7 → ℝ), ∃ m ≤ n,
      ikLoop target dims cfg n as = (sweepOnce target dims cfg)^[m] as := by
  intro n
  induction n with
  | zero => intro as; exact ⟨0, le_refl 0, rfl⟩
  | succ k ih =>
    intro as
    rw [ikLoop_succ]
    split_ifs with hc
    · exact ⟨0, Nat.zero_le _, rfl⟩
    · obtain ⟨m, hm, he⟩ := ih (sweepOnce target dims cfg as)
      exact ⟨m + 1, by omega, by rw [Function.iterate_succ_apply]; exact he⟩

theorem drawAngles_inLimits (cfg : Fin 7 → JointConfig) (r : Fin 7 → ℝ)
    (hminmax : ∀ i, (cfg i).min ≤ (cfg i).max)
    (hr : ∀ i, 0 ≤ r i ∧ r i ≤ 1) :
    inLimits cfg (drawAngles cfg r) := by
  intro i
  obtain ⟨h0, h1⟩ := hr i
  have hm := hminmax i
  unfold drawAngles
  constructor <;> nlinarith

theorem generateWorkspace_nil (cfg : Fin 7 → JointConfig) (dims : RobotDimensions) :
    generateWorkspace cfg dims [] = [] := rfl

theorem generateWorkspace_cons (cfg : Fin 7 → JointConfig) (dims : RobotDimensions)
    (r : Fin 7 → ℝ) (rest : List (Fin 7 → ℝ)) :
    generateWorkspace cfg dims (r :: rest) =
      if ¬ checkSelfCollision (computeFK (drawAngles cfg r) dims) then
        computeFK (drawAngles cfg r) dims 7 :: generateWorkspace cfg dims rest
      else generateWorkspace cfg dims rest := rfl

theorem generateWorkspace_length (cfg : Fin 7 → JointConfig) (dims : RobotDimensions) :
    ∀ draws : List (Fin 7 → ℝ),
      (generateWorkspace cfg dims draws).length ≤ draws.length := by
  intro draws
  induction draws with
  | nil => simp [generateWorkspace_nil]
  | cons r rest ih =>
    rw [generateWorkspace_cons]
    by_cases hcol : checkSelfCollision (computeFK (drawAngles cfg r) dims)
    · rw [if_neg (not_not_intro hcol)]
      exact le_trans ih (by simp)
    · rw [if_pos hcol]
      simpa using Nat.succ_le_succ ih

theorem generateWorkspace_mem (cfg : Fin 7 → JointConfig) (dims : RobotDimensions) :
    ∀ (draws : List (Fin 7 → ℝ)) (pt : V3), pt ∈ generateWorkspace cfg dims draws →
      ∃ r ∈ draws, ¬ checkSelfCollision (computeFK (drawAngles cfg r) dims) ∧
        pt = computeFK (drawAngles cfg r) dims 7 := by
  intro draws
  induction draws with
  | nil => intro pt h; simp [generateWorkspace_nil] at h
  | cons r rest ih =>
    intro pt h
    rw [generateWorkspace_cons] at h
    by_cases hcol : checkSelfCollision (computeFK (drawAngles cfg r) dims)
    · rw [if_neg (not_not_intro hcol)] at h
      obtain ⟨r', hr', hc', he'⟩ := ih pt h
      exact ⟨r', List.mem_cons_of_mem r hr', hc', he'⟩
    · rw [if_pos hcol] at h
      rcases List.mem_cons.mp h with he | ht
      · exact ⟨r, List.mem_cons_self r rest, hcol, he⟩
      · obtain ⟨r', hr', hc', he'⟩ := ih pt ht
        exact ⟨r', List.mem_cons_of_mem r hr', hc', he'⟩

/-- C1 counterexample: at the all-zero pose with the default lengths the
tip height (0.5) is strictly below the sum of all eight link lengths
(3.5) and the horizontal z-offset is strictly positive (3), so the tip is
not directly above the base at total-length height. -/
theorem claim1_counterexample :
    (computeFK zeroAngles DEFAULT_DIMENSIONS 7).y <
        0.2 + 0.3 + 0.8 + 0.6 + 0.6 + 0.5 + 0.3 + 0.2 ∧
      0 < (computeFK zeroAngles DEFAULT_DIMENSIONS 7).z := by
  rw [computeFK_zeroAngles]
  norm_num [zeroPosePts]

/-- C1 (amended): at the all-zero pose with the default lengths the tip
sits at x = 0, height equal to the two Y-aligned lengths
(baseHeight + j1j2 = 0.5), and forward z-offset equal to the sum of the
six Z-aligned link lengths (3.0). -/
theorem claim1_zero_pose_tip :
    computeFK zeroAngles DEFAULT_DIMENSIONS 7 =
      ⟨0, DEFAULT_DIMENSIONS.baseHeight + DEFAULT_DIMENSIONS.j1j2,
        DEFAULT_DIMENSIONS.j2j3 + DEFAULT_DIMENSIONS.j3j4 + DEFAULT_DIMENSIONS.j4j5 +
          DEFAULT_DIMENSIONS.j5j6 + DEFAULT_DIMENSIONS.j6j7 + DEFAULT_DIMENSIONS.j7tip⟩ := by
  rw [computeFK_zeroAngles]
  norm_num [zeroPosePts, DEFAULT_DIMENSIONS]

/-- Limit configuration freezing every joint (min = max = 0). -/
def cfgFrozen : Fin 7 → JointConfig := fun _ => ⟨0, 0, 0, 0⟩

/-- C2 counterexample: with every joint frozen at [0, 0] (min ≤ max holds)
and the positive default lengths, starting from the all-ones angle vector
with the target at the current tip, solveIK returns angle 1 at joint 0,
strictly above that joint's configured max of 0: the returned vector is
not within limits for an arbitrary initial vector. -/
theorem claim2_counterexample :
    (∀ i, (cfgFrozen i).min ≤ (cfgFrozen i).max) ∧
      (0 < DEFAULT_DIMENSIONS.baseHeight ∧ 0 < DEFAULT_DIMENSIONS.j1j2 ∧
        0 < DEFAULT_DIMENSIONS.j2j3 ∧ 0 < DEFAULT_DIMENSIONS.j3j4 ∧
        0 < DEFAULT_DIMENSIONS.j4j5 ∧ 0 < DEFAULT_DIMENSIONS.j5j6 ∧
        0 < DEFAULT_DIMENSIONS.j6j7 ∧ 0 < DEFAULT_DIMENSIONS.j7tip) ∧
      (cfgFrozen 0).max <
        solveIK (computeFK (fun _ => 1) DEFAULT_DIMENSIONS 7) (fun _ => 1)
          DEFAULT_DIMENSIONS cfgFrozen 0 := by
  refine ⟨fun i => le_refl _, by norm_num [DEFAULT_DIMENSIONS], ?_⟩
  rw [solveIK_early _ _ _ _ (by rw [V3.distanceTo_self]; norm_num)]
  norm_num [cfgFrozen]

/-- C2 (amended): if additionally every initial angle lies inside its
joint's [min, max] range, then the vector returned by solveIK is within
limits, and limits are preserved by every single CCD joint update and by
every (partial) sweep, so every intermediate angle vector is within
limits too. -/
theorem claim2_limits (target : V3) (as : Fin 7 → ℝ) (dims : RobotDimensions)
    (cfg : Fin 7 → JointConfig)
    (hpos : 0 < dims.baseHeight ∧ 0 < dims.j1j2 ∧ 0 < dims.j2j3 ∧ 0 < dims.j3j4 ∧
      0 < dims.j4j5 ∧ 0 < dims.j5j6 ∧ 0 < dims.j6j7 ∧ 0 < dims.j7tip)
    (hminmax : ∀ i, (cfg i).min ≤ (cfg i).max)
    (hinit : inLimits cfg as) :
    inLimits cfg (solveIK target as dims cfg) ∧
      (∀ (ps : Fin 8 → V3) (i : Fin 7) (st : (Fin 7 → ℝ) × V3),
        inLimits cfg st.1 → inLimits cfg (ccdStep target dims cfg ps i st).1) ∧
      (∀ (ps : Fin 8 → V3) (l : List (Fin 7)) (st : (Fin 7 → ℝ) × V3),
        inLimits cfg st.1 → inLimits cfg (ccdSweep target dims cfg ps l st).1) := by
  refine ⟨?_, ?_, ?_⟩
  · rw [solveIK_def]
    exact ikLoop_inLimits target dims cfg hminmax 5 as hinit
  · intro ps i st h
    exact ccdStep_inLimits target dims cfg ps i st hminmax h
  · intro ps l st h
    exact ccdSweep_inLimits target dims cfg ps hminmax l st h

/-- C2 witness: the amended limit-preservation theorem applied to the
frozen configuration, the all-zero initial vector and the default
lengths. -/
theorem claim2_limits_witness :
    ((0 : ℝ) < DEFAULT_DIMENSIONS.baseHeight ∧ 0 < DEFAULT_DIMENSIONS.j1j2 ∧
      0 < DEFAULT_DIMENSIONS.j2j3 ∧ 0 < DEFAULT_DIMENSIONS.j3j4 ∧
      0 < DEFAULT_DIMENSIONS.j4j5 ∧ 0 < DEFAULT_DIMENSIONS.j5j6 ∧
      0 < DEFAULT_DIMENSIONS.j6j7 ∧ 0 < DEFAULT_DIMENSIONS.j7tip) ∧
      (∀ i, (cfgFrozen i).min ≤ (cfgFrozen i).max) ∧
      inLimits cfgFrozen zeroAngles ∧
      (inLimits cfgFrozen (solveIK ⟨0, 0, 0⟩ zeroAngles DEFAULT_DIMENSIONS cfgFrozen) ∧
        (∀ (ps : Fin 8 → V3) (i : Fin 7) (st : (Fin 7 → ℝ) × V3),
          inLimits cfgFrozen st.1 →
            inLimits cfgFrozen (ccdStep ⟨0, 0, 0⟩ DEFAULT_DIMENSIONS cfgFrozen ps i st).1) ∧
        (∀ (ps : Fin 8 → V3) (l : List (Fin 7)) (st : (Fin 7 → ℝ) × V3),
          inLimits cfgFrozen st.1 →
            inLimits cfgFrozen (ccdSweep ⟨0, 0, 0⟩ DEFAULT_DIMENSIONS cfgFrozen ps l st).1)) := by
  have hpos : (0 : ℝ) < DEFAULT_DIMENSIONS.baseHeight ∧ 0 < DEFAULT_DIMENSIONS.j1j2 ∧
      0 < DEFAULT_DIMENSIONS.j2j3 ∧ 0 < DEFAULT_DIMENSIONS.j3j4 ∧
      0 < DEFAULT_DIMENSIONS.j4j5 ∧ 0 < DEFAULT_DIMENSIONS.j5j6 ∧
      0 < DEFAULT_DIMENSIONS.j6j7 ∧ 0 < DEFAULT_DIMENSIONS.j7tip := by
    norm_num [DEFAULT_DIMENSIONS]
  have hmm : ∀ i, (cfgFrozen i).min ≤ (cfgFrozen i).max := fun i => le_refl _
  have hin : inLimits cfgFrozen zeroAngles := fun i => ⟨le_refl _, le_refl _⟩
  exact ⟨hpos, hmm, hin,
    claim2_limits ⟨0, 0, 0⟩ zeroAngles DEFAULT_DIMENSIONS cfgFrozen hpos hmm hin⟩

/-- Collision verdict restated from the spec's words: some position is
below the floor buffer, or two chain segments whose indices differ by
more than 1 are closer than the clearance threshold. -/
noncomputable def checkCollisionSpec (ps : Fin 8 → V3) : Prop :=
  (∃ k : Fin 8, (ps k).y < FLOOR_LIMIT + 0.05) ∨
  (∃ i j : Fin 8, 1 < (j : ℕ) - (i : ℕ) ∧
    distSegmentToSegment (segmentsOf ps i).1 (segmentsOf ps i).2
      (segmentsOf ps j).1 (segmentsOf ps j).2 < COLLISION_WARNING_THRESHOLD)

/-- C3: checkSelfCollision holds exactly when some position is below
FLOOR_LIMIT + 0.05 or some pair of the 8 chain segments (origin-to-J1
plus the 7 consecutive ones) with indices more than 1 apart is closer
than the 0.15 clearance threshold. -/
theorem claim3_collision_iff (ps : Fin 8 → V3) :
    checkSelfCollision ps ↔ checkCollisionSpec ps := by
  unfold checkSelfCollision checkCollisionSpec
  apply or_congr Iff.rfl
  constructor
  · rintro ⟨i, j, hij, hd⟩
    exact ⟨i, j, by omega, hd⟩
  · rintro ⟨i, j, hij, hd⟩
    exact ⟨i, j, by omega, hd⟩

/-- C4: whenever the tip of the FK of the initial angles is within 0.01
of the target, solveIK returns the initial angle vector unchanged (the
early-exit branch fires on the first outer iteration). -/
theorem claim4_early_exit (target : V3) (as : Fin 7 → ℝ) (dims : RobotDimensions)
    (cfg : Fin 7 → JointConfig)
    (h : (computeFK as dims 7).distanceTo target < 0.01) :
    solveIK target as dims cfg = as :=
  solveIK_early target as dims cfg h

/-- C4 witness: with the target placed exactly at the all-zero-pose tip
(0, 0.5, 3), solveIK is the identity on the angle vector. -/
theorem claim4_early_exit_witness :
    (computeFK zeroAngles DEFAULT_DIMENSIONS 7).distanceTo ⟨0, 0.5, 3⟩ < 0.01 ∧
      solveIK ⟨0, 0.5, 3⟩ zeroAngles DEFAULT_DIMENSIONS DEFAULT_JOINTS = zeroAngles := by
  have h : (computeFK zeroAngles DEFAULT_DIMENSIONS 7).distanceTo ⟨0, 0.5, 3⟩ < 0.01 := by
    rw [computeFK_zeroAngles, show zeroPosePts 7 = ⟨0, 0.5, 3⟩ from rfl,
      V3.distanceTo_self]
    norm_num
  exact ⟨h, claim4_early_exit ⟨0, 0.5, 3⟩ zeroAngles DEFAULT_DIMENSIONS DEFAULT_JOINTS h⟩

/-- C5: on the joint positions computed by computeFK from the default
rest pose (default angles, default lengths), checkSelfCollision does not
hold: no position is below the floor buffer and no non-adjacent segment
pair is closer than the clearance threshold. -/
theorem claim5_rest_pose_collision_free :
    checkSelfCollision (computeFK defaultAngles DEFAULT_DIMENSIONS) ↔ False := by
  rw [computeFK_defaultAngles]
  exact iff_false_intro checkSelfCollision_restPose

/-- C6: the workspace sampler emits at most one point per draw, and every
emitted point is the FK tip of an angle vector inside the joint limits
whose FK positions pass the collision check. -/
theorem claim6_sampler (cfg : Fin 7 → JointConfig) (dims : RobotDimensions)
    (draws : List (Fin 7 → ℝ))
    (hminmax : ∀ i, (cfg i).min ≤ (cfg i).max)
    (hdraws : ∀ r ∈ draws, ∀ i, 0 ≤ r i ∧ r i ≤ 1) :
    (generateWorkspace cfg dims draws).length ≤ draws.length ∧
      ∀ pt ∈ generateWorkspace cfg dims draws, ∃ as : Fin 7 → ℝ,
        inLimits cfg as ∧ ¬ checkSelfCollision (computeFK as dims) ∧
        pt = computeFK as dims 7 := by
  refine ⟨generateWorkspace_length cfg dims draws, ?_⟩
  intro pt hpt
  obtain ⟨r, hr, hcol, he⟩ := generateWorkspace_mem cfg dims draws pt hpt
  exact ⟨drawAngles cfg r, drawAngles_inLimits cfg r hminmax (hdraws r hr), hcol, he⟩

/-- C6 witness: the sampler theorem applied to the frozen configuration
and a single all-zero draw. -/
theorem claim6_sampler_witness :
    (∀ i, (cfgFrozen i).min ≤ (cfgFrozen i).max) ∧
      (∀ r ∈ [fun _ : Fin 7 => (0 : ℝ)], ∀ i, 0 ≤ r i ∧ r i ≤ 1) ∧
      ((generateWorkspace cfgFrozen DEFAULT_DIMENSIONS [fun _ => 0]).length ≤
          ([fun _ : Fin 7 => (0 : ℝ)]).length ∧
        ∀ pt ∈ generateWorkspace cfgFrozen DEFAULT_DIMENSIONS [fun _ => 0],
          ∃ as : Fin 7 → ℝ, inLimits cfgFrozen as ∧
            ¬ checkSelfCollision (computeFK as DEFAULT_DIMENSIONS) ∧
            pt = computeFK as DEFAULT_DIMENSIONS 7) := by
  have hmm : ∀ i, (cfgFrozen i).min ≤ (cfgFrozen i).max := fun i => le_refl _
  have hdr : ∀ r ∈ [fun _ : Fin 7 => (0 : ℝ)], ∀ i, 0 ≤ r i ∧ r i ≤ 1 := by
    intro r hr i
    rw [List.mem_singleton] at hr
    subst hr
    norm_num
  exact ⟨hmm, hdr, claim6_sampler cfgFrozen DEFAULT_DIMENSIONS [fun _ => 0] hmm hdr⟩

/-- C7: solveIK always terminates with an angle vector obtained by at
most 5 backward sweeps of the CCD loop (the early exit may stop it
sooner); there is no failure branch for any real-valued input. -/
theorem claim7_termination (target : V3) (as : Fin 7 → ℝ) (dims : RobotDimensions)
    (cfg : Fin 7 → JointConfig) :
    ∃ n ≤ 5, solveIK target as dims cfg = (sweepOnce target dims cfg)^[n] as := by
  rw [solveIK_def]
  exact ikLoop_iterate target dims cfg 5 as

/-- C8: the wrist-roll angle (index 6) is returned by solveIK exactly as
it was passed in: the positional sweep only touches joints 5 down to 0. -/
theorem claim8_wrist_roll (target : V3) (as : Fin 7 → ℝ) (dims : RobotDimensions)
    (cfg : Fin 7 → JointConfig) :
    solveIK target as dims cfg 6 = as 6 := by
  rw [solveIK_def]
  exact ikLoop_sixth target dims cfg 5 as

/-- C9: in the segment-distance computation the 1e-6 guards make every
performed division well-defined: whenever a numerator escapes its guard
the matching denominator is nonzero, and the returned distance is a
well-defined nonnegative real. -/
theorem claim9_division_guards (p1 q1 p2 q2 : V3) :
    (1e-6 ≤ |(segBranch p1 q1 p2 q2).1| → (segBranch p1 q1 p2 q2).2.1 ≠ 0) ∧
      (1e-6 ≤ |(segBranch p1 q1 p2 q2).2.2.1| → (segBranch p1 q1 p2 q2).2.2.2 ≠ 0) ∧
      0 ≤ distSegmentToSegment p1 q1 p2 q2 := by
  obtain ⟨h1, h2, h3, h4⟩ := segBranch_bounds p1 q1 p2 q2
  refine ⟨?_, ?_, distSegmentToSegment_nonneg p1 q1 p2 q2⟩
  · intro habs
    rw [abs_of_nonneg h1] at habs
    have hpos : (0 : ℝ) < (segBranch p1 q1 p2 q2).2.1 := by linarith
    exact ne_of_gt hpos
  · intro habs
    rw [abs_of_nonneg h3] at habs
    have hpos : (0 : ℝ) < (segBranch p1 q1 p2 q2).2.2.2 := by linarith
    exact ne_of_gt hpos

/-- C9 witness: the division-guard theorem instantiated at a concrete
pair of unit segments. -/
theorem claim9_division_guards_witness :
    (1e-6 ≤ |(segBranch ⟨0, 0, 0⟩ ⟨1, 0, 0⟩ ⟨0, 1, 0⟩ ⟨1, 1, 0⟩).1| →
        (segBranch ⟨0, 0, 0⟩ ⟨1, 0, 0⟩ ⟨0, 1, 0⟩ ⟨1, 1, 0⟩).2.1 ≠ 0) ∧
      (1e-6 ≤ |(segBranch ⟨0, 0, 0⟩ ⟨1, 0, 0⟩ ⟨0, 1, 0⟩ ⟨1, 1, 0⟩).2.2.1| →
        (segBranch ⟨0, 0, 0⟩ ⟨1, 0, 0⟩ ⟨0, 1, 0⟩ ⟨1, 1, 0⟩).2.2.2 ≠ 0) ∧
      0 ≤ distSegmentToSegment ⟨0, 0, 0⟩ ⟨1, 0, 0⟩ ⟨0, 1, 0⟩ ⟨1, 1, 0⟩ :=
  claim9_division_guards ⟨0, 0, 0⟩ ⟨1, 0, 0⟩ ⟨0, 1, 0⟩ ⟨1, 1, 0⟩

/-- C10: every point emitted by the workspace sampler has height at least
FLOOR_LIMIT + 0.05, because a collision-free verdict rules out any
position below the floor buffer and the emitted tip is one of the
positions. -/
theorem claim10_floor_buffer (cfg : Fin 7 → JointConfig) (dims : RobotDimensions)
    (draws : List (Fin 7 → ℝ)) (pt : V3)
    (h : pt ∈ generateWorkspace cfg dims draws) :
    FLOOR_LIMIT + 0.05 ≤ pt.y := by
  obtain ⟨r, hr, hcol, he⟩ := generateWorkspace_mem cfg dims draws pt h
  subst he
  have hfloor : ¬ ∃ k : Fin 8,
      ((computeFK (drawAngles cfg r) dims) k).y < FLOOR_LIMIT + 0.05 :=
    fun hex => hcol (Or.inl hex)
  push_neg at hfloor
  exact hfloor 7

/-- C10 witness: with the frozen configuration and one all-zero draw the
sampler emits exactly the all-zero-pose tip (0, 0.5, 3), whose height
satisfies the floor buffer. -/
theorem claim10_floor_buffer_witness :
    FLOOR_LIMIT + 0.05 ≤ (V3.mk 0 0.5 3).y := by
  have hdraw : drawAngles cfgFrozen (fun _ => 0) = zeroAngles := by
    funext i
    simp [drawAngles, cfgFrozen, zeroAngles]
  have hmem : (V3.mk 0 0.5 3) ∈
      generateWorkspace cfgFrozen DEFAULT_DIMENSIONS [fun _ => 0] := by
    rw [generateWorkspace_cons, hdraw, computeFK_zeroAngles,
      if_pos checkSelfCollision_zeroPose, generateWorkspace_nil,
      show zeroPosePts 7 = ⟨0, 0.5, 3⟩ from rfl]
    exact List.mem_singleton.mpr rfl
  exact claim10_floor_buffer cfgFrozen DEFAULT_DIMENSIONS [fun _ => 0] ⟨0, 0.5, 3⟩ hmem
